import Mathlib

/-!
Verification development for the job-monitor aggregation engine
(`job_monitor.py`): a shallow embedding of the geographic filter, the
freshness filter, the dedup store, the notification dispatch and the
scan core (`check_and_notify`), with theorems settling the specified
behaviour.  Python strings are modelled over `List Char` (ASCII
behaviour of `strip` / `lower` / `upper` / `split` / substring `in`),
machine-level details that do not affect the claims (logging, the MD5
hex digest, wall-clock reading, the SMTP wire protocol) are abstracted
as stated at each definition.
-/

/-- Python `str.isspace` characters relevant to `strip()` (ASCII). -/
def pyWhitespace (c : Char) : Bool :=
  c == ' ' || c == '\t' || c == '\n' || c == '\r' ||
  c == Char.ofNat 11 || c == Char.ofNat 12

/-- Python `str.strip()`: drop whitespace at both ends. -/
def pyStrip (cs : List Char) : List Char :=
  ((cs.dropWhile pyWhitespace).reverse.dropWhile pyWhitespace).reverse

/-- ASCII lower-casing of one character (Python `str.lower` on ASCII). -/
def pyLowerChar (c : Char) : Char :=
  if 'A' ≤ c ∧ c ≤ 'Z' then Char.ofNat (c.toNat + 32) else c

/-- ASCII upper-casing of one character (Python `str.upper` on ASCII). -/
def pyUpperChar (c : Char) : Char :=
  if 'a' ≤ c ∧ c ≤ 'z' then Char.ofNat (c.toNat - 32) else c

def pyLower (cs : List Char) : List Char := cs.map pyLowerChar

def pyUpper (cs : List Char) : List Char := cs.map pyUpperChar

/-- Does `hay` start with `needle`? (helper for substring containment). -/
def startsWith : List Char → List Char → Bool
  | [], _ => true
  | _ :: _, [] => false
  | n :: ns, h :: hs => n == h && startsWith ns hs

/-- Python `needle in hay` on strings: substring containment. -/
def containsSub (hay needle : List Char) : Bool :=
  match hay with
  | [] => needle.isEmpty
  | _ :: t => startsWith needle hay || containsSub t needle

/-- Python `s.split(sep)` for a one-character separator: keeps empty
pieces, never returns the empty list. -/
def splitOnChar (sep : Char) (cs : List Char) : List (List Char) :=
  cs.foldr
    (fun c acc =>
      if c == sep then [] :: acc
      else
        match acc with
        | [] => [[c]]
        | a :: as => (c :: a) :: as)
    [[]]

/-- Helper for `pySplitWs`: accumulates the current word reversed. -/
def splitWsAux : List Char → List Char → List (List Char)
  | [], cur => if cur.isEmpty then [] else [cur.reverse]
  | c :: rest, cur =>
    if pyWhitespace c then
      if cur.isEmpty then splitWsAux rest []
      else cur.reverse :: splitWsAux rest []
    else splitWsAux rest (c :: cur)

/-- Python `s.split()` with no argument: split on whitespace runs,
discarding empty pieces (so the empty string yields `[]`). -/
def pySplitWs (cs : List Char) : List (List Char) := splitWsAux cs []

/-- Python regex `\w` on the ASCII fragment: `[A-Za-z0-9_]`. -/
def isWordChar (c : Char) : Bool :=
  (decide ('A' ≤ c ∧ c ≤ 'Z')) || (decide ('a' ≤ c ∧ c ≤ 'z')) ||
  (decide ('0' ≤ c ∧ c ≤ '9')) || c == '_'

def isUpperAZ (c : Char) : Bool := decide ('A' ≤ c ∧ c ≤ 'Z')

/-- `re.findall` of two capital letters between word boundaries
(the source's pattern over the upper-cased location): left-to-right
scan, `prev` is the character before the current position. -/
def findCaps2 : Option Char → List Char → List (List Char)
  | _, [] => []
  | _, [_] => []
  | prev, c1 :: c2 :: rest =>
    let prevOk := match prev with
      | none => true
      | some p => !isWordChar p
    let afterOk := match rest with
      | [] => true
      | c3 :: _ => !isWordChar c3
    if prevOk && isUpperAZ c1 && isUpperAZ c2 && afterOk then
      [c1, c2] :: findCaps2 (some c2) rest
    else
      findCaps2 (some c1) (c2 :: rest)

/-- `US_STATES` from the source: the 2-letter subdivision codes. -/
def US_STATES : List String :=
  ["AL", "AK", "AZ", "AR", "CA", "CO", "CT", "DE", "FL", "GA", "HI", "ID", "IL",
   "IN", "IA", "KS", "KY", "LA", "ME", "MD", "MA", "MI", "MN", "MS", "MO", "MT",
   "NE", "NV", "NH", "NJ", "NM", "NY", "NC", "ND", "OH", "OK", "OR", "PA", "RI",
   "SC", "SD", "TN", "TX", "UT", "VT", "VA", "WA", "WV", "WI", "WY", "DC"]

/-- `US_STATE_NAMES` from the source. -/
def US_STATE_NAMES : List String :=
  ["alabama", "alaska", "arizona", "arkansas", "california", "colorado",
   "connecticut", "delaware", "florida", "georgia", "hawaii", "idaho",
   "illinois", "indiana", "iowa", "kansas", "kentucky", "louisiana", "maine",
   "maryland", "massachusetts", "michigan", "minnesota", "mississippi",
   "missouri", "montana", "nebraska", "nevada", "new hampshire", "new jersey",
   "new mexico", "new york", "north carolina", "north dakota", "ohio",
   "oklahoma", "oregon", "pennsylvania", "rhode island", "south carolina",
   "south dakota", "tennessee", "texas", "utah", "vermont", "virginia",
   "washington", "west virginia", "wisconsin", "wyoming", "washington dc",
   "washington d.c.", "district of columbia"]

/-- `NON_US_KEYWORDS` from the source: any of these appearing as a
substring of the lower-cased location rejects immediately. -/
def NON_US_KEYWORDS : List String :=
  ["bangalore", "bengaluru", "hyderabad", "mumbai", "pune", "chennai", "delhi",
   "noida", "gurugram", "gurgaon", "kolkata", "india",
   "london", "manchester", "berlin", "munich", "amsterdam", "paris", "dublin",
   "warsaw", "prague", "zurich", "geneva", "stockholm", "oslo", "copenhagen",
   "lisbon", "madrid", "barcelona", "rome", "milan", "vienna", "brussels",
   "uk", "united kingdom", "england", "scotland", "germany", "france",
   "netherlands", "ireland", "spain", "italy", "austria", "sweden", "norway",
   "denmark", "finland", "portugal", "poland", "switzerland", "belgium",
   "toronto", "vancouver", "montreal", "calgary", "ottawa", "canada",
   "singapore", "sydney", "melbourne", "brisbane", "australia", "new zealand",
   "tokyo", "osaka", "japan", "beijing", "shanghai", "china", "hong kong",
   "seoul", "south korea", "taipei", "taiwan", "kuala lumpur", "malaysia",
   "jakarta", "indonesia", "bangkok", "thailand", "philippines",
   "dubai", "abu dhabi", "uae", "israel", "tel aviv", "cairo", "egypt",
   "south africa", "johannesburg", "nairobi", "kenya",
   "mexico city", "brazil", "sao paulo", "buenos aires", "argentina", "bogota",
   "remote - india", "remote - uk", "remote - eu", "remote - europe",
   "remote - canada", "remote - australia", "remote - latam",
   "remote - global", "remote - apac", "remote - emea",
   "emea", "apac", "latam", "global (excluding us)"]

/-- `US_POSITIVE_KEYWORDS` from the source: any of these appearing as a
substring accepts immediately (after the negative check). -/
def US_POSITIVE_KEYWORDS : List String :=
  ["united states", " usa", "(usa)", "u.s.a", "u.s.",
   "remote - us", "remote us", "us remote", "us only",
   "remote (us", "remote, us", "anywhere in us",
   "work from home - us", "work remotely in the us"]

/-- The `bare_remote` set inside `is_us_location`. -/
def BARE_REMOTE : List String :=
  ["remote", "worldwide", "anywhere", "global", "work from home",
   "distributed", "flexible", "virtual", "telecommute"]

/-- The `us_cities` set inside `is_us_location`. -/
def US_CITIES : List String :=
  ["new york", "san francisco", "seattle", "chicago", "austin", "boston",
   "los angeles", "denver", "atlanta", "dallas", "houston", "miami",
   "phoenix", "minneapolis", "portland", "san diego", "san jose",
   "pittsburgh", "philadelphia", "detroit", "st. louis", "salt lake city",
   "raleigh", "charlotte", "nashville", "kansas city", "baltimore",
   "cleveland", "columbus", "indianapolis", "memphis", "louisville",
   "new orleans", "richmond", "sacramento", "orlando", "tampa",
   "las vegas", "cincinnati", "milwaukee", "st louis", "washington, dc",
   "washington d.c", "menlo park", "mountain view", "palo alto",
   "redwood city", "cupertino", "sunnyvale", "santa clara", "bellevue",
   "kirkland", "redmond"]

/-- `kw in loc` for every keyword of a set (the source's rejection and
acceptance loops return as soon as one keyword is contained). -/
def anyKeywordIn (kws : List String) (loc : List Char) : Bool :=
  kws.any (fun kw => containsSub loc kw.toList)

/-- `token in US_STATES` for a token given as characters. -/
def stateListContains (t : List Char) : Bool :=
  US_STATES.any (fun s => s.toList == t)

/-- Rules 5-7 of `is_us_location` (full state name substring, standalone
2-letter capital token, curated US city substring), reached when rule 4
does not accept. -/
def usLocLateRules (locRaw locLow : List Char) : Option Bool :=
  if anyKeywordIn US_STATE_NAMES locLow then some true
  else if (findCaps2 none (pyUpper locRaw)).any stateListContains then some true
  else if anyKeywordIn US_CITIES locLow then some true
  else some false

/-- Body of `is_us_location` over the character list of the location.
Returns `none` when the Python code would raise: with at least two
comma-separated parts whose last part strips to the empty string,
`parts[-1].strip().upper().split()[0]` is an IndexError. -/
def isUsLocImpl (cs : List Char) : Option Bool :=
  if cs = [] then some false
  else
    let locRaw := pyStrip cs
    let locLow := pyLower locRaw
    if anyKeywordIn NON_US_KEYWORDS locLow then some false
    else if anyKeywordIn US_POSITIVE_KEYWORDS locLow then some true
    else if BARE_REMOTE.any (fun w => pyStrip locLow == w.toList) then some false
    else
      let parts := splitOnChar ',' locRaw
      if 2 ≤ parts.length then
        match pySplitWs (pyUpper (pyStrip (parts.getLastD []))) with
        | [] => none
        | w :: _ =>
          if stateListContains (w.take 2) then some true
          else usLocLateRules locRaw locLow
      else usLocLateRules locRaw locLow

/-- `is_us_location` from the source (lines 170-234), as a function of
the location string; `some b` is a normal return, `none` an uncaught
IndexError inside rule 4. -/
def is_us_location (location_name : String) : Option Bool :=
  isUsLocImpl location_name.toList

/-- A posting as built by the source's `job(...)` helper: the dict keys
`title`, `company`, `location`, `url`, `source`, `posted_at`. -/
structure Job where
  title : String
  company : String
  location : String
  url : String
  source : String
  posted_at : String
deriving DecidableEq, Repr

/-- `make_id` (source line 253): the fingerprint of a posting.  The
source hashes the string `f"{source}::{uid}"` with `hashlib.md5` — an
external library digest, modelled here as the identity on that
deterministic pre-image (determinism of the digest, the only property
the engine relies on, is preserved; no claim depends on digest width
or collisions). -/
def make_id (source uid : String) : String := source ++ "::" ++ uid

/-- `BLOCKED_COMPANIES` from the source (line 87). -/
def BLOCKED_COMPANIES : List String := ["Lensa", "Jobs via Dice", "Arbor Tek Systems"]

/-- `is_fresh` (source lines 291-300).  `parse` stands for
`dateutil.parser.parse` (external library): `some t` is a successful
parse to the instant `t` in seconds UTC (a naive result is coerced to
UTC by the source, which the absolute-seconds model absorbs), `none` a
parse exception.  `now` is the current instant in seconds;
`timedelta(hours=hours)` is `hours * 3600` seconds; the source keeps a
posting exactly when `now - posted < timedelta(hours=hours)`. -/
def is_fresh (parse : String → Option Int) (now : Int)
    (posted_str : String) (hours : Int) : Bool :=
  if posted_str = "" then true
  else
    match parse posted_str with
    | none => true
    | some posted => decide (now - posted < hours * 3600)

/-- `load_seen` (source lines 256-261).  The storage state is
`Except.error ()` when opening, reading or JSON-decoding the seen file
raises (absent, unreadable or corrupt file), `Except.ok l` when the
file holds the serialized list `l` of fingerprint strings; `set(...)`
is modelled by `dedup`. -/
def load_seen (storage : Except Unit (List String)) : List String :=
  match storage with
  | Except.error _ => []
  | Except.ok l => l.dedup

/-- Outcome of one `send_email` call (source lines 1500-1535): the
function never raises. -/
inductive EmailOutcome where
  /-- SMTP_USER or SMTP_PASS missing: return without sending, after a
  warning iff the batch is non-empty. -/
  | notConfigured (warned : Bool)
  /-- The SMTP transport succeeded and the digest was sent. -/
  | sent
  /-- The SMTP transport raised; the exception is caught and logged. -/
  | failedLogged
deriving DecidableEq, Repr

/-- `send_email` (source lines 1500-1535): `transportOk` abstracts
whether the SMTP session (connect, starttls, login, sendmail) succeeds;
a transport exception is caught by the source's `try/except` and only
logged. -/
def send_email (smtpUser smtpPass : String) (transportOk : Bool)
    (jobs : List Job) : EmailOutcome :=
  if smtpUser = "" ∨ smtpPass = "" then
    EmailOutcome.notConfigured (!jobs.isEmpty)
  else if transportOk then EmailOutcome.sent
  else EmailOutcome.failedLogged

/-- The body of the inner `for j in future.result()` loop of
`check_and_notify` (source lines 1551-1567) acting on the state
(seen-set, new-jobs batch): skip on empty url; skip if the fingerprint
is already seen; otherwise add the fingerprint, then drop blocked
companies and stale postings, else append to the batch (the desktop
popup sent at that point swallows every error and has no effect on the
state). -/
def scanStep (parse : String → Option Int) (now : Int)
    (st : List String × List Job) (j : Job) : List String × List Job :=
  if j.url = "" then st
  else if make_id j.source j.url ∈ st.1 then st
  else if j.company ∈ BLOCKED_COMPANIES then (make_id j.source j.url :: st.1, st.2)
  else if is_fresh parse now j.posted_at 24 then
    (make_id j.source j.url :: st.1, st.2 ++ [j])
  else (make_id j.source j.url :: st.1, st.2)

/-- One adapter future at fan-in (source lines 1548-1569): a raising
adapter (`Except.error`) is caught by the per-adapter `try/except`,
logged at debug severity and contributes nothing; a returning adapter
(`Except.ok js`) has each posting processed in order. -/
def scanResult1 (parse : String → Option Int) (now : Int)
    (st : List String × List Job) (r : Except String (List Job)) :
    List String × List Job :=
  match r with
  | Except.error _ => st
  | Except.ok js => js.foldl (scanStep parse now) st

/-- The fan-in processing of all adapter results in `check_and_notify`,
from the loaded seen-set and an empty batch.  `results` is the list of
adapter outcomes in `as_completed` completion order (arbitrary). -/
def runResults (parse : String → Option Int) (now : Int)
    (seen0 : List String) (results : List (Except String (List Job))) :
    List String × List Job :=
  results.foldl (scanResult1 parse now) (seen0, [])

/-- Observable outcome of one completed scan. -/
structure ScanResult where
  /-- The batch of newly surfaced postings, in processing order. -/
  new_jobs : List Job
  /-- The seen-set handed to `save_seen` (membership is what matters;
  the Python `set` has no order). -/
  seen_out : List String
  /-- The one `send_email` call (`none` when the batch was empty and
  no call was made). -/
  email : Option EmailOutcome
deriving DecidableEq, Repr

/-- `check_and_notify` (source lines 1541-1579): load the seen-set,
process every adapter result, then `save_seen(seen)` — which has no
`try/except` anywhere around it, so `saveOk = false` (an I/O error
while writing) makes the exception escape the function before any
email is sent — and finally one `send_email` call iff the batch is
non-empty. -/
def check_and_notify (parse : String → Option Int) (now : Int)
    (storage : Except Unit (List String))
    (results : List (Except String (List Job))) (saveOk : Bool)
    (smtpUser smtpPass : String) (transportOk : Bool) :
    Except Unit ScanResult :=
  let seen0 := load_seen storage
  let st := runResults parse now seen0 results
  if saveOk then
    Except.ok
      { new_jobs := st.2
        seen_out := st.1
        email :=
          if st.2.isEmpty then none
          else some (send_email smtpUser smtpPass transportOk st.2) }
  else Except.error ()

/-- The ok-result lists of the fan-in, in completion order: what the
scan processes once raising adapters are dropped. -/
def okLists (results : List (Except String (List Job))) : List (List Job) :=
  results.filterMap (fun r =>
    match r with
    | Except.ok js => some js
    | Except.error _ => none)

/-- Fan-in processing over plain posting lists (no failure cases). -/
def runJobLists (parse : String → Option Int) (now : Int)
    (st : List String × List Job) (jss : List (List Job)) :
    List String × List Job :=
  jss.foldl (fun acc js => js.foldl (scanStep parse now) acc) st

/-- A parse function on which every timestamp is unparseable (witness
input; under it every posting is fresh, fail-open). -/
def parseNone : String → Option Int := fun _ => none

/-- Witness input: a posting from a blocked company. -/
def jBlocked : Job :=
  { title := "Data Engineer", company := "Lensa", location := "Remote",
    url := "u1", source := "S", posted_at := "" }

/-- Witness input: a fresh posting from an unblocked company. -/
def jFresh : Job :=
  { title := "Data Engineer", company := "ACME", location := "Austin, TX",
    url := "u2", source := "S", posted_at := "" }

/-- Witness input: a posting with an empty url. -/
def jNoUrl : Job :=
  { title := "Data Engineer", company := "ACME", location := "Austin, TX",
    url := "", source := "S", posted_at := "" }

/-- Result of scanning `[jBlocked]` from an empty seen-set: the blocked
posting is marked seen but not surfaced. -/
def rBlockedScan : ScanResult :=
  { new_jobs := [], seen_out := [make_id "S" "u1"], email := none }

/-- Result of scanning `[jFresh]` from an empty seen-set with no SMTP
configuration. -/
def rFreshScan : ScanResult :=
  { new_jobs := [jFresh], seen_out := [make_id "S" "u2"],
    email := some (EmailOutcome.notConfigured true) }

/-- Result of re-scanning `[jFresh]` from the saved seen-set. -/
def rSecondScan : ScanResult :=
  { new_jobs := [], seen_out := [make_id "S" "u2"], email := none }

/-- Result of scanning `[jNoUrl, jFresh]` from the seen-set `["old"]`:
the url-less posting is discarded before identity computation. -/
def rNoUrlScan : ScanResult :=
  { new_jobs := [jFresh], seen_out := [make_id "S" "u2", "old"],
    email := some (EmailOutcome.notConfigured true) }

theorem scanStep_seen_mono (p : String → Option Int) (n : Int)
    (st : List String × List Job) (j : Job) (x : String) (hx : x ∈ st.1) :
    x ∈ (scanStep p n st j).1 := by
  unfold scanStep
  split
  · exact hx
  split
  · exact hx
  split
  · exact List.mem_cons_of_mem _ hx
  split
  · exact List.mem_cons_of_mem _ hx
  · exact List.mem_cons_of_mem _ hx

theorem scanStep_fp (p : String → Option Int) (n : Int)
    (st : List String × List Job) (j : Job) (hurl : ¬ j.url = "") :
    make_id j.source j.url ∈ (scanStep p n st j).1 := by
  unfold scanStep
  rw [if_neg hurl]
  split
  · assumption
  split
  · exact List.mem_cons_self _ _
  split
  · exact List.mem_cons_self _ _
  · exact List.mem_cons_self _ _

theorem scanStep_seen_cases (p : String → Option Int) (n : Int)
    (st : List String × List Job) (j : Job) (x : String)
    (hx : x ∈ (scanStep p n st j).1) :
    x ∈ st.1 ∨ (¬ j.url = "" ∧ x = make_id j.source j.url) := by
  unfold scanStep at hx
  by_cases h1 : j.url = ""
  · rw [if_pos h1] at hx
    exact Or.inl hx
  rw [if_neg h1] at hx
  by_cases h2 : make_id j.source j.url ∈ st.1
  · rw [if_pos h2] at hx
    exact Or.inl hx
  rw [if_neg h2] at hx
  split at hx
  · rcases List.mem_cons.mp hx with h | h
    · exact Or.inr ⟨h1, h⟩
    · exact Or.inl h
  split at hx
  · rcases List.mem_cons.mp hx with h | h
    · exact Or.inr ⟨h1, h⟩
    · exact Or.inl h
  · rcases List.mem_cons.mp hx with h | h
    · exact Or.inr ⟨h1, h⟩
    · exact Or.inl h

theorem scanStep_news_sub (p : String → Option Int) (n : Int)
    (st : List String × List Job) (j j' : Job) (hj : j' ∈ st.2) :
    j' ∈ (scanStep p n st j).2 := by
  unfold scanStep
  split
  · exact hj
  split
  · exact hj
  split
  · exact hj
  split
  · exact List.mem_append_left _ hj
  · exact hj

theorem scanStep_news_cases (p : String → Option Int) (n : Int)
    (st : List String × List Job) (j j' : Job)
    (hj : j' ∈ (scanStep p n st j).2) :
    j' ∈ st.2 ∨
      (j' = j ∧ ¬ j.url = "" ∧ j.company ∉ BLOCKED_COMPANIES ∧
        is_fresh p n j.posted_at 24 = true) := by
  unfold scanStep at hj
  by_cases h1 : j.url = ""
  · rw [if_pos h1] at hj
    exact Or.inl hj
  rw [if_neg h1] at hj
  by_cases h2 : make_id j.source j.url ∈ st.1
  · rw [if_pos h2] at hj
    exact Or.inl hj
  rw [if_neg h2] at hj
  by_cases h3 : j.company ∈ BLOCKED_COMPANIES
  · rw [if_pos h3] at hj
    exact Or.inl hj
  rw [if_neg h3] at hj
  by_cases h4 : is_fresh p n j.posted_at 24
  · rw [if_pos h4] at hj
    rcases List.mem_append.mp hj with h | h
    · exact Or.inl h
    · exact Or.inr ⟨List.mem_singleton.mp h, h1, h3, h4⟩
  · rw [if_neg h4] at hj
    exact Or.inl hj

theorem scanStep_skip (p : String → Option Int) (n : Int)
    (st : List String × List Job) (j : Job)
    (h : j.url = "" ∨ make_id j.source j.url ∈ st.1) :
    scanStep p n st j = st := by
  unfold scanStep
  rcases h with h | h
  · rw [if_pos h]
  · by_cases h1 : j.url = ""
    · rw [if_pos h1]
    · rw [if_neg h1, if_pos h]

theorem foldSteps_seen_mono (p : String → Option Int) (n : Int)
    (js : List Job) (st : List String × List Job) (x : String)
    (hx : x ∈ st.1) : x ∈ (js.foldl (scanStep p n) st).1 := by
  induction js generalizing st with
  | nil => exact hx
  | cons a as ih =>
    rw [List.foldl_cons]
    exact ih _ (scanStep_seen_mono p n st a x hx)

theorem foldSteps_fp (p : String → Option Int) (n : Int)
    (js : List Job) (st : List String × List Job) (j : Job)
    (hmem : j ∈ js) (hurl : ¬ j.url = "") :
    make_id j.source j.url ∈ (js.foldl (scanStep p n) st).1 := by
  induction js generalizing st with
  | nil => cases hmem
  | cons a as ih =>
    rw [List.foldl_cons]
    rcases List.mem_cons.mp hmem with h | h
    · subst h
      exact foldSteps_seen_mono p n as _ _ (scanStep_fp p n st j hurl)
    · exact ih _ h

theorem foldSteps_seen_cases (p : String → Option Int) (n : Int)
    (js : List Job) (st : List String × List Job) (x : String)
    (hx : x ∈ (js.foldl (scanStep p n) st).1) :
    x ∈ st.1 ∨ ∃ j, j ∈ js ∧ ¬ j.url = "" ∧ x = make_id j.source j.url := by
  induction js generalizing st with
  | nil => exact Or.inl hx
  | cons a as ih =>
    rw [List.foldl_cons] at hx
    rcases ih _ hx with h | ⟨j, hj, hu, he⟩
    · rcases scanStep_seen_cases p n st a x h with h' | ⟨hu, he⟩
      · exact Or.inl h'
      · exact Or.inr ⟨a, List.mem_cons_self _ _, hu, he⟩
    · exact Or.inr ⟨j, List.mem_cons_of_mem _ hj, hu, he⟩

theorem foldSteps_news_cases (p : String → Option Int) (n : Int)
    (js : List Job) (st : List String × List Job) (j' : Job)
    (hj : j' ∈ (js.foldl (scanStep p n) st).2) :
    j' ∈ st.2 ∨
      (j' ∈ js ∧ ¬ j'.url = "" ∧ j'.company ∉ BLOCKED_COMPANIES ∧
        is_fresh p n j'.posted_at 24 = true) := by
  induction js generalizing st with
  | nil => exact Or.inl hj
  | cons a as ih =>
    rw [List.foldl_cons] at hj
    rcases ih _ hj with h | ⟨hm, hu, hb, hf⟩
    · rcases scanStep_news_cases p n st a j' h with h' | ⟨he, hu, hb, hf⟩
      · exact Or.inl h'
      · subst he
        exact Or.inr ⟨List.mem_cons_self _ _, hu, hb, hf⟩
    · exact Or.inr ⟨List.mem_cons_of_mem _ hm, hu, hb, hf⟩

theorem foldSteps_skip (p : String → Option Int) (n : Int)
    (js : List Job) (st : List String × List Job)
    (h : ∀ j, j ∈ js → j.url = "" ∨ make_id j.source j.url ∈ st.1) :
    js.foldl (scanStep p n) st = st := by
  induction js with
  | nil => rfl
  | cons a as ih =>
    rw [List.foldl_cons, scanStep_skip p n st a (h a (List.mem_cons_self _ _))]
    exact ih (fun j hj => h j (List.mem_cons_of_mem _ hj))

theorem scanResult1_seen_mono (p : String → Option Int) (n : Int)
    (st : List String × List Job) (r : Except String (List Job)) (x : String)
    (hx : x ∈ st.1) : x ∈ (scanResult1 p n st r).1 := by
  cases r with
  | error e => exact hx
  | ok js => exact foldSteps_seen_mono p n js st x hx

theorem foldResults_seen_mono (p : String → Option Int) (n : Int)
    (results : List (Except String (List Job)))
    (st : List String × List Job) (x : String) (hx : x ∈ st.1) :
    x ∈ (results.foldl (scanResult1 p n) st).1 := by
  induction results generalizing st with
  | nil => exact hx
  | cons r rs ih =>
    rw [List.foldl_cons]
    exact ih _ (scanResult1_seen_mono p n st r x hx)

theorem foldResults_fp (p : String → Option Int) (n : Int)
    (results : List (Except String (List Job)))
    (st : List String × List Job) (js : List Job) (j : Job)
    (hres : Except.ok js ∈ results) (hmem : j ∈ js) (hurl : ¬ j.url = "") :
    make_id j.source j.url ∈ (results.foldl (scanResult1 p n) st).1 := by
  induction results generalizing st with
  | nil => cases hres
  | cons r rs ih =>
    rw [List.foldl_cons]
    rcases List.mem_cons.mp hres with h | h
    · subst h
      exact foldResults_seen_mono p n rs _ _
        (foldSteps_fp p n js st j hmem hurl)
    · exact ih _ h

theorem foldResults_seen_cases (p : String → Option Int) (n : Int)
    (results : List (Except String (List Job)))
    (st : List String × List Job) (x : String)
    (hx : x ∈ (results.foldl (scanResult1 p n) st).1) :
    x ∈ st.1 ∨
      ∃ js j, Except.ok js ∈ results ∧ j ∈ js ∧ ¬ j.url = "" ∧
        x = make_id j.source j.url := by
  induction results generalizing st with
  | nil => exact Or.inl hx
  | cons r rs ih =>
    rw [List.foldl_cons] at hx
    rcases ih _ hx with h | ⟨js, j, hr, hj, hu, he⟩
    · cases r with
      | error e => exact Or.inl h
      | ok js =>
        rcases foldSteps_seen_cases p n js st x h with h' | ⟨j, hj, hu, he⟩
        · exact Or.inl h'
        · exact Or.inr ⟨js, j, List.mem_cons_self _ _, hj, hu, he⟩
    · exact Or.inr ⟨js, j, List.mem_cons_of_mem _ hr, hj, hu, he⟩

theorem foldResults_news_cases (p : String → Option Int) (n : Int)
    (results : List (Except String (List Job)))
    (st : List String × List Job) (j' : Job)
    (hj : j' ∈ (results.foldl (scanResult1 p n) st).2) :
    j' ∈ st.2 ∨
      ∃ js, Except.ok js ∈ results ∧ j' ∈ js ∧ ¬ j'.url = "" ∧
        j'.company ∉ BLOCKED_COMPANIES ∧ is_fresh p n j'.posted_at 24 = true := by
  induction results generalizing st with
  | nil => exact Or.inl hj
  | cons r rs ih =>
    rw [List.foldl_cons] at hj
    rcases ih _ hj with h | ⟨js, hr, hm, hu, hb, hf⟩
    · cases r with
      | error e => exact Or.inl h
      | ok js =>
        rcases foldSteps_news_cases p n js st j' h with h' | ⟨hm, hu, hb, hf⟩
        · exact Or.inl h'
        · exact Or.inr ⟨js, List.mem_cons_self _ _, hm, hu, hb, hf⟩
    · exact Or.inr ⟨js, List.mem_cons_of_mem _ hr, hm, hu, hb, hf⟩

theorem foldResults_skip (p : String → Option Int) (n : Int)
    (results : List (Except String (List Job)))
    (st : List String × List Job)
    (h : ∀ js, Except.ok js ∈ results →
      ∀ j, j ∈ js → j.url = "" ∨ make_id j.source j.url ∈ st.1) :
    results.foldl (scanResult1 p n) st = st := by
  induction results with
  | nil => rfl
  | cons r rs ih =>
    rw [List.foldl_cons]
    have hr : scanResult1 p n st r = st := by
      cases r with
      | error e => rfl
      | ok js => exact foldSteps_skip p n js st (h js (List.mem_cons_self _ _))
    rw [hr]
    exact ih (fun js hjs j hj => h js (List.mem_cons_of_mem _ hjs) j hj)

theorem foldResults_eq_okLists (p : String → Option Int) (n : Int)
    (results : List (Except String (List Job)))
    (st : List String × List Job) :
    results.foldl (scanResult1 p n) st = runJobLists p n st (okLists results) := by
  induction results generalizing st with
  | nil => rfl
  | cons r rs ih =>
    cases r with
    | error e =>
      rw [List.foldl_cons]
      show rs.foldl (scanResult1 p n) st = runJobLists p n st (okLists (Except.error e :: rs))
      have : okLists (Except.error e :: rs) = okLists rs := rfl
      rw [this]
      exact ih st
    | ok js =>
      rw [List.foldl_cons]
      have : okLists (Except.ok js :: rs) = js :: okLists rs := rfl
      rw [this]
      show rs.foldl (scanResult1 p n) (js.foldl (scanStep p n) st) =
        runJobLists p n st (js :: okLists rs)
      have h2 : runJobLists p n st (js :: okLists rs) =
          runJobLists p n (js.foldl (scanStep p n) st) (okLists rs) := rfl
      rw [h2]
      exact ih _

/-- With the save succeeding, `check_and_notify` reduces to its
components. -/
theorem check_and_notify_ok (p : String → Option Int) (n : Int)
    (storage : Except Unit (List String))
    (results : List (Except String (List Job)))
    (u ps : String) (t : Bool) :
    check_and_notify p n storage results true u ps t =
      Except.ok
        { new_jobs := (runResults p n (load_seen storage) results).2
          seen_out := (runResults p n (load_seen storage) results).1
          email :=
            if (runResults p n (load_seen storage) results).2.isEmpty then none
            else
              some (send_email u ps t
                (runResults p n (load_seen storage) results).2) } := rfl

/-- Any location whose lower-cased stripped text contains the negative
keyword `uk` as a raw substring is rejected by `is_us_location` before
any accepting rule runs. -/
theorem uk_substring_rejects (cs : List Char)
    (h : containsSub (pyLower (pyStrip cs)) (String.toList "uk") = true) :
    isUsLocImpl cs = some false := by
  have hne : ¬ cs = [] := by
    intro he
    rw [he] at h
    exact absurd h (by decide)
  have hany : anyKeywordIn NON_US_KEYWORDS (pyLower (pyStrip cs)) = true := by
    unfold anyKeywordIn
    exact List.any_eq_true.mpr ⟨"uk", by decide, h⟩
  unfold isUsLocImpl
  rw [if_neg hne, if_pos hany]

/-- C4: the geographic classifier (is_us_location) returns exactly the
specified results on the six spec inputs: "Austin, TX" accept,
"Bangalore, India" reject, "Remote" reject, "Remote - US" accept, ""
reject, and "London, UK" reject (the negative keyword takes precedence
over every later accepting rule). -/
theorem claim_C4_geo_filter_spec_inputs :
    is_us_location "Austin, TX" = some true ∧
    is_us_location "Bangalore, India" = some false ∧
    is_us_location "Remote" = some false ∧
    is_us_location "Remote - US" = some true ∧
    is_us_location "" = some false ∧
    is_us_location "London, UK" = some false := by
  refine ⟨?_, ?_, ?_, ?_, ?_, ?_⟩ <;> decide

/-- C10: the negative-keyword rule of is_us_location is raw substring
containment over the lower-cased location, so any location containing
"uk" is rejected before any accepting rule; in particular
is_us_location "Milwaukee, WI" is false even though "milwaukee" is in
the curated city list, "WI" is a US state code, and the trailing-state
rule (rule 4) on "Milwaukee, WI" would accept. -/
theorem claim_C10_uk_substring_milwaukee :
    (∀ loc : String,
      containsSub (pyLower (pyStrip loc.toList)) (String.toList "uk") = true →
      is_us_location loc = some false) ∧
    is_us_location "Milwaukee, WI" = some false ∧
    "milwaukee" ∈ US_CITIES ∧
    "WI" ∈ US_STATES ∧
    (match pySplitWs (pyUpper (pyStrip
        ((splitOnChar ',' (pyStrip (String.toList "Milwaukee, WI"))).getLastD []))) with
      | [] => false
      | w :: _ => stateListContains (w.take 2)) = true := by
  refine ⟨fun loc h => uk_substring_rejects loc.toList h, ?_, ?_, ?_, ?_⟩
  · decide
  · decide
  · decide
  · decide

/-- Witness for C10: the universal rejection rule applied at the
concrete location "Milwaukee, WI". -/
theorem claim_C10_witness :
    is_us_location "Milwaukee, WI" = some false :=
  claim_C10_uk_substring_milwaukee.1 "Milwaukee, WI" (by decide)

/-- C6: with a 24-hour window, is_fresh rejects exactly when the
timestamp string is non-empty, parses, and denotes a time at least 24
hours before now; otherwise (empty, unparseable, or within the window)
it accepts.  In particular a posting timestamped 30 hours before now is
rejected, and an unparseable timestamp is accepted. -/
theorem claim_C6_freshness_fail_open (parse : String → Option Int)
    (now : Int) (s : String) :
    (is_fresh parse now s 24 = false ↔
      (¬ s = "" ∧ ∃ t, parse s = some t ∧ 24 * 3600 ≤ now - t)) ∧
    (¬ s = "" → parse s = some (now - 30 * 3600) →
      is_fresh parse now s 24 = false) ∧
    (parse s = none → is_fresh parse now s 24 = true) := by
  refine ⟨⟨?_, ?_⟩, ?_, ?_⟩
  · intro hf
    unfold is_fresh at hf
    by_cases hs : s = ""
    · rw [if_pos hs] at hf
      cases hf
    · rw [if_neg hs] at hf
      cases hp : parse s with
      | none =>
        rw [hp] at hf
        cases hf
      | some t =>
        rw [hp] at hf
        exact ⟨hs, t, rfl, not_lt.mp (of_decide_eq_false hf)⟩
  · rintro ⟨hs, t, hp, hle⟩
    unfold is_fresh
    rw [if_neg hs, hp]
    exact decide_eq_false (not_lt.mpr hle)
  · intro hs hp
    unfold is_fresh
    rw [if_neg hs, hp]
    apply decide_eq_false
    omega
  · intro hp
    unfold is_fresh
    by_cases hs : s = ""
    · rw [if_pos hs]
    · rw [if_neg hs, hp]

/-- Witness for C6: a timestamp parsed to 30 hours before now is
rejected; an unparseable one is accepted. -/
theorem claim_C6_witness :
    is_fresh (fun _ => some 0) 108000 "t0" 24 = false ∧
    is_fresh parseNone 0 "garbage" 24 = true :=
  ⟨(claim_C6_freshness_fail_open (fun _ => some 0) 108000 "t0").2.1
      (by decide) (by decide),
   (claim_C6_freshness_fail_open parseNone 0 "garbage").2.2 rfl⟩

/-- C8: load_seen fails open — every raising storage state (absent,
unreadable or corrupt file) yields the empty set, and a valid
serialized list yields exactly the set of its strings. -/
theorem claim_C8_load_seen_fails_open :
    (∀ e : Unit, load_seen (Except.error e) = []) ∧
    (∀ (l : List String) (x : String), x ∈ load_seen (Except.ok l) ↔ x ∈ l) :=
  ⟨fun _ => rfl, fun _ _ => List.mem_dedup⟩

/-- C2 counterexample: at a concrete input whose seen-set save raises,
check_and_notify does not continue — the exception propagates (the
claim says the failure is logged and the scan continues). -/
theorem claim_C2_counterexample :
    check_and_notify parseNone 0 (Except.ok []) [] false "" "" true =
      Except.error () := rfl

/-- C2 (amended): if persisting the seen-set fails, the exception
propagates out of check_and_notify uncaught — save_seen and its call
site have no handler — so nothing is logged there, no email is sent,
and the scheduler loop driving it would crash. -/
theorem claim_C2_save_failure_propagates (parse : String → Option Int)
    (now : Int) (storage : Except Unit (List String))
    (results : List (Except String (List Job)))
    (u ps : String) (t : Bool) :
    check_and_notify parse now storage results false u ps t =
      Except.error () := rfl

/-- C5: adapter failure isolation — the scan completes without raising
for every mix of raising and returning adapters, and its processing
equals the processing of exactly the returning adapters' posting lists
(each raising adapter contributes zero postings). -/
theorem claim_C5_adapter_failure_isolation (parse : String → Option Int)
    (now : Int) (storage : Except Unit (List String))
    (results : List (Except String (List Job))) (u ps : String) (t : Bool) :
    (∃ r, check_and_notify parse now storage results true u ps t =
      Except.ok r) ∧
    runResults parse now (load_seen storage) results =
      runJobLists parse now (load_seen storage, []) (okLists results) :=
  ⟨⟨_, check_and_notify_ok parse now storage results u ps t⟩,
   foldResults_eq_okLists parse now results _⟩

/-- C1: during one scan, every fetched posting with a non-empty url
whose fingerprint is not already in the loaded seen-set has its
fingerprint added to the seen-set before the blocked-company and
freshness checks, so a stale or blocked posting is still marked seen
and produces no notification. -/
theorem claim_C1_seen_marked_before_filters (parse : String → Option Int)
    (now : Int) (storage : Except Unit (List String))
    (results : List (Except String (List Job))) (u ps : String) (t : Bool)
    (js : List Job) (j : Job) (r : ScanResult)
    (hres : Except.ok js ∈ results) (hmem : j ∈ js) (hurl : ¬ j.url = "")
    (_hnew : make_id j.source j.url ∉ load_seen storage)
    (hrun : check_and_notify parse now storage results true u ps t =
      Except.ok r) :
    make_id j.source j.url ∈ r.seen_out ∧
    ((j.company ∈ BLOCKED_COMPANIES ∨ is_fresh parse now j.posted_at 24 = false) →
      j ∉ r.new_jobs) := by
  rw [check_and_notify_ok] at hrun
  injection hrun with h
  subst h
  constructor
  · exact foldResults_fp parse now results (load_seen storage, []) js j hres hmem hurl
  · intro hbad hmemnew
    rcases foldResults_news_cases parse now results (load_seen storage, []) j
        hmemnew with h | ⟨js', _hr, _hm, _hu, hb, hf⟩
    · exact absurd h (List.not_mem_nil j)
    · rcases hbad with hb2 | hf2
      · exact hb hb2
      · rw [hf] at hf2
        cases hf2

/-- Witness for C1: the blocked posting jBlocked, fetched alone over an
empty seen-set, is marked seen and not surfaced. -/
theorem claim_C1_witness :
    make_id jBlocked.source jBlocked.url ∈ rBlockedScan.seen_out ∧
    jBlocked ∉ rBlockedScan.new_jobs := by
  have h := claim_C1_seen_marked_before_filters parseNone 0 (Except.ok [])
    [Except.ok [jBlocked]] "" "" true [jBlocked] jBlocked rBlockedScan
    (List.mem_cons_self _ _) (List.mem_cons_self _ _) (by decide) (by decide) rfl
  exact ⟨h.1, h.2 (Or.inl (by decide))⟩

/-- C9: a posting with an empty url never reaches the dedup store — it
is never surfaced, and every seen-set entry beyond the loaded ones is
the fingerprint of some fetched posting with a non-empty url. -/
theorem claim_C9_empty_url_never_dedup (parse : String → Option Int)
    (now : Int) (storage : Except Unit (List String))
    (results : List (Except String (List Job))) (u ps : String) (t : Bool)
    (r : ScanResult)
    (hrun : check_and_notify parse now storage results true u ps t =
      Except.ok r) :
    (∀ j, j ∈ r.new_jobs → ¬ j.url = "") ∧
    (∀ x, x ∈ r.seen_out → x ∈ load_seen storage ∨
      ∃ js j, Except.ok js ∈ results ∧ j ∈ js ∧ ¬ j.url = "" ∧
        x = make_id j.source j.url) := by
  rw [check_and_notify_ok] at hrun
  injection hrun with h
  subst h
  constructor
  · intro j hj
    rcases foldResults_news_cases parse now results (load_seen storage, []) j
        hj with h | ⟨js, _, _, hu, _, _⟩
    · exact absurd h (List.not_mem_nil j)
    · exact hu
  · intro x hx
    exact foldResults_seen_cases parse now results (load_seen storage, []) x hx

/-- Witness for C9: in the scan of `[jNoUrl, jFresh]` the only surfaced
posting has a non-empty url. -/
theorem claim_C9_witness : ¬ jFresh.url = "" :=
  (claim_C9_empty_url_never_dedup parseNone 0 (Except.ok ["old"])
    [Except.ok [jNoUrl, jFresh]] "" "" true rNoUrlScan rfl).1 jFresh (by decide)

/-- C3: idempotence of a scan — running check_and_notify twice on the
identical adapter results, the first save succeeding and the second
scan loading what the first saved, yields an empty new-postings list on
the second run; every fingerprint of a fetched posting with a non-empty
url is in the seen-set after the first run. -/
theorem claim_C3_scan_idempotent (parse : String → Option Int) (now : Int)
    (storage : Except Unit (List String))
    (results : List (Except String (List Job)))
    (u ps : String) (t : Bool) (u2 ps2 : String) (t2 : Bool)
    (r1 r2 : ScanResult)
    (h1 : check_and_notify parse now storage results true u ps t =
      Except.ok r1)
    (h2 : check_and_notify parse now (Except.ok r1.seen_out) results true
      u2 ps2 t2 = Except.ok r2) :
    r2.new_jobs = [] ∧
    (∀ js j, Except.ok js ∈ results → j ∈ js → ¬ j.url = "" →
      make_id j.source j.url ∈ r1.seen_out) := by
  rw [check_and_notify_ok] at h1
  injection h1 with e1
  subst e1
  rw [check_and_notify_ok] at h2
  injection h2 with e2
  subst e2
  have hfp : ∀ js j, Except.ok js ∈ results → j ∈ js → ¬ j.url = "" →
      make_id j.source j.url ∈
        (runResults parse now (load_seen storage) results).1 :=
    fun js j hr hm hu => foldResults_fp parse now results _ js j hr hm hu
  refine ⟨?_, hfp⟩
  have hskip : results.foldl (scanResult1 parse now)
      (load_seen (Except.ok (runResults parse now (load_seen storage) results).1),
        ([] : List Job)) =
      (load_seen (Except.ok (runResults parse now (load_seen storage) results).1),
        ([] : List Job)) := by
    apply foldResults_skip
    intro js hjs j hj
    by_cases hu : j.url = ""
    · exact Or.inl hu
    · exact Or.inr (List.mem_dedup.mpr (hfp js j hjs hj hu))
  show (results.foldl (scanResult1 parse now)
      (load_seen (Except.ok (runResults parse now (load_seen storage) results).1),
        ([] : List Job))).2 = []
  rw [hskip]

/-- Witness for C3: scanning `[jFresh]` twice, the second scan loading
the first's saved seen-set, surfaces nothing on the second run, and the
fingerprint is in the first run's seen-set. -/
theorem claim_C3_witness :
    rSecondScan.new_jobs = [] ∧
    make_id jFresh.source jFresh.url ∈ rFreshScan.seen_out := by
  have h := claim_C3_scan_idempotent parseNone 0 (Except.ok [])
    [Except.ok [jFresh]] "" "" true "" "" true rFreshScan rSecondScan rfl rfl
  exact ⟨h.1, h.2 [jFresh] jFresh (List.mem_cons_self _ _)
    (List.mem_cons_self _ _) (by decide)⟩

/-- C7: the batch transport is invoked at most once per scan and only
when the new-postings batch is non-empty; missing SMTP configuration
yields a logged warning and no send; a transport error is caught and
logged; and with the save succeeding the scan never fails, whatever the
transport does. -/
theorem claim_C7_batch_transport_contract (parse : String → Option Int)
    (now : Int) (storage : Except Unit (List String))
    (results : List (Except String (List Job))) (u ps : String) (t : Bool)
    (r : ScanResult)
    (hrun : check_and_notify parse now storage results true u ps t =
      Except.ok r) :
    (r.email = none ↔ r.new_jobs = []) ∧
    ((u = "" ∨ ps = "") → ¬ r.new_jobs = [] →
      r.email = some (EmailOutcome.notConfigured true)) ∧
    (¬ u = "" → ¬ ps = "" → t = false → ¬ r.new_jobs = [] →
      r.email = some EmailOutcome.failedLogged) ∧
    (∀ t' : Bool, ∃ r', check_and_notify parse now storage results true
      u ps t' = Except.ok r') := by
  rw [check_and_notify_ok] at hrun
  injection hrun with h
  subst h
  refine ⟨?_, ?_, ?_,
    fun t' => ⟨_, check_and_notify_ok parse now storage results u ps t'⟩⟩
  · show (if (runResults parse now (load_seen storage) results).2.isEmpty
        then none
        else some (send_email u ps t
          (runResults parse now (load_seen storage) results).2)) = none ↔
      (runResults parse now (load_seen storage) results).2 = []
    cases hX : (runResults parse now (load_seen storage) results).2 with
    | nil => simp
    | cons a as => simp
  · intro hcfg hne
    show (if (runResults parse now (load_seen storage) results).2.isEmpty
        then none
        else some (send_email u ps t
          (runResults parse now (load_seen storage) results).2)) =
      some (EmailOutcome.notConfigured true)
    cases hX : (runResults parse now (load_seen storage) results).2 with
    | nil => exact absurd hX hne
    | cons a as => simp [send_email, hcfg]
  · intro hu hps ht hne
    subst ht
    show (if (runResults parse now (load_seen storage) results).2.isEmpty
        then none
        else some (send_email u ps false
          (runResults parse now (load_seen storage) results).2)) =
      some EmailOutcome.failedLogged
    cases hX : (runResults parse now (load_seen storage) results).2 with
    | nil => exact absurd hX hne
    | cons a as => simp [send_email, hu, hps]

/-- Witness for C7: with SMTP credentials absent and one fresh posting
surfaced, the scan's one transport call is the skip-and-warn outcome. -/
theorem claim_C7_witness :
    rFreshScan.email = some (EmailOutcome.notConfigured true) :=
  (claim_C7_batch_transport_contract parseNone 0 (Except.ok [])
    [Except.ok [jFresh]] "" "" true rFreshScan rfl).2.1 (Or.inl rfl) (by decide)
